import Mathlib

/-!
Verification of the background process supervisor in src/ui/task_control.rs
(atlas_prime). The definitions below are a shallow embedding of the data
model and the operations of the supervisor: the TaskDescriptor data model,
the final-status resolution of a ProcessRunner, the log append helpers, the
I/O pump select loop, the control mailbox, startup loading, the
control-sender lifecycle, the synchronous part of start_or_stop_task, and
the List-mode selection keys. Machine details that the claims do not touch
(ANSI rendering, the redraw event payload, wall-clock instants) are modelled
by plain data (Nat timestamps, no event payloads).
-/

namespace AtlasTask

/-- RestartPolicy from task_control.rs. -/
inductive RestartPolicy
  | Always
  | Warn
  | Never
deriving DecidableEq, Repr

/-- TaskDescriptor from task_control.rs: the immutable JSON descriptor.
The envs HashMap is modelled as an association list. -/
structure TaskDescriptor where
  id : String
  name : String
  command : String
  args : List String
  cwd : Option String
  envs : Option (List (String × String))
  autostart : Bool
  group : String
  log_limit : Option Nat
  restart_policy : Option RestartPolicy
deriving DecidableEq, Repr

/-- TaskStatus from task_control.rs. The std::time::Instant start time is
modelled as a Nat tick. -/
inductive TaskStatus
  | Stopped
  | Running (pid : Nat) (start_time : Nat)
  | Failed (reason : String)
deriving DecidableEq, Repr

/-- Whether a status is the Running variant (the discriminant checked by
the if-let in start_or_stop_task). -/
def TaskStatus.isRunning : TaskStatus → Bool
  | .Running _ _ => true
  | _ => false

/-- TaskControlMsg from task_control.rs. -/
inductive TaskControlMsg
  | Stdin (text : String)
  | Stop
deriving DecidableEq, Repr

/-- The child process exit status as seen by the supervising loop:
std::process::ExitStatus exposes an optional exit code; the code is None
when the child was killed by a signal. -/
structure ExitStatus where
  code : Option Int
deriving DecidableEq, Repr

/-- ExitStatus::success(): true exactly when the exit code is 0. -/
def ExitStatus.success (s : ExitStatus) : Bool :=
  s.code == some 0

/-- The reason string built in the non-clean-exit branch of the supervising
loop: the exit code rendered as text, or a killed-by-signal description when
no code exists (task_control.rs lines 335-339). -/
def exitReason (st : ExitStatus) : String :=
  "Exit Code: " ++ (match st.code with
    | some c => toString c
    | none => "Killed by signal")

/-- Final status resolution after the supervising loop breaks
(task_control.rs lines 327-350): the match on exit_result. On Ok, Stopped
when a manual stop was requested or the exit was a clean success, otherwise
Failed with the exit reason; on Err (the wait itself failed), Failed with
the error text. -/
def resolveFinalStatus (is_manual_stop : Bool) (exit_result : Except String ExitStatus) :
    TaskStatus :=
  match exit_result with
  | .ok status =>
    if is_manual_stop || status.success then
      .Stopped
    else
      .Failed (exitReason status)
  | .error e => .Failed e

/-- What a completed run of the spawned runner produced when the spawn
succeeded: the child pid, the Running start tick, whether a manual Stop was
received during the loop, and how child.wait resolved. -/
structure RunOutcome where
  pid : Nat
  start_time : Nat
  is_manual_stop : Bool
  exit_result : Except String ExitStatus
deriving Repr

/-- The ordered sequence of writes a single ProcessRunner performs on the
task's StatusCell (task_control.rs lines 246-356): on spawn failure a
single Failed write with the spawn error text; on spawn success a Running
write followed by the resolved final status. -/
def runnerStatusWrites (spawn : Except String RunOutcome) : List TaskStatus :=
  match spawn with
  | .error e => [.Failed e]
  | .ok r => [.Running r.pid r.start_time, resolveFinalStatus r.is_manual_stop r.exit_result]

/-- C1: when the supervising loop's wait resolves with an exit status, the
final StatusCell write is Stopped iff a manual Stop was requested or the
exit was a clean success code; otherwise it is Failed with a reason built
from the exit code, or from a killed-by-signal description when no code
exists. -/
theorem C1_resolve_final_status (m : Bool) (st : ExitStatus) :
    ((m = true ∨ st.success = true) →
      resolveFinalStatus m (Except.ok st) = TaskStatus.Stopped)
    ∧ (m = false → st.success = false →
      resolveFinalStatus m (Except.ok st) = TaskStatus.Failed (exitReason st))
    ∧ (∀ c : Int, st.code = some c → m = false → st.success = false →
      resolveFinalStatus m (Except.ok st) = TaskStatus.Failed ("Exit Code: " ++ toString c))
    ∧ (st.code = none → m = false →
      resolveFinalStatus m (Except.ok st) = TaskStatus.Failed ("Exit Code: Killed by signal")) := by
  refine ⟨?_, ?_, ?_, ?_⟩
  · rintro (hm | hs)
    · simp [resolveFinalStatus, hm]
    · simp [resolveFinalStatus, hs]
  · intro hm hs
    simp [resolveFinalStatus, hm, hs]
  · intro c hc hm hs
    simp [resolveFinalStatus, hm, hs, exitReason, hc]
  · intro hc hm
    have hs : st.success = false := by
      simp [ExitStatus.success, hc]
    simp [resolveFinalStatus, hm, hs, exitReason, hc]

/-- Witness for C1 at a concrete non-clean exit: exit code 1, no manual
stop, resolves to Failed with the exit-code reason. -/
theorem C1_witness :
    resolveFinalStatus false (Except.ok ⟨some 1⟩) = TaskStatus.Failed (exitReason ⟨some 1⟩) :=
  (C1_resolve_final_status false ⟨some 1⟩).2.1 rfl (by decide)

/-- C2: when the spawn attempt fails, the runner's only StatusCell write is
Failed with the spawn error text; the status never passes through Running
for that attempt, and the runner takes no further action (the write list is
exactly that one Failed write, so nothing escapes the task's StatusCell). -/
theorem C2_spawn_failure (e : String) :
    runnerStatusWrites (Except.error e) = [TaskStatus.Failed e]
    ∧ (∀ p t, TaskStatus.Running p t ∉ runnerStatusWrites (Except.error e)) := by
  constructor
  · rfl
  · intro p t h
    simp [runnerStatusWrites] at h

/-- Witness for C2 at a concrete spawn error text. -/
theorem C2_witness :
    runnerStatusWrites (Except.error ("No such file or directory")) =
      [TaskStatus.Failed ("No such file or directory")] :=
  (C2_spawn_failure ("No such file or directory")).1

/-- The log capacity the spec assigns to a task: its log_limit when
present, 1000 otherwise. (This is the SPEC's notion of capacity, used to
state claim C3; the code's append helper below uses a hardcoded 1000.) -/
def logCapacity (d : TaskDescriptor) : Nat :=
  d.log_limit.getD 1000

/-- append_log from task_control.rs (lines 282-297): push the line to the
back of the VecDeque and, if the length now exceeds 1000, pop one line from
the front. The hardcoded 1000 does not consult the descriptor's log_limit.
The VecDeque is modelled as a list whose head is the oldest line; the
redraw notification carries no data and is omitted. -/
def append_log (logs : List String) (line : String) : List String :=
  let l := logs ++ [line]
  if l.length > 1000 then l.tail else l

/-- The local stdin echo append performed by handle_log_keys on Enter
(task_control.rs lines 525-527): push_back of the tagged input with no
eviction of any kind. -/
def echo_append (logs : List String) (input : String) : List String :=
  logs ++ [">>> " ++ input]

/-- A concrete descriptor with log_limit = 1, used to refute C3. -/
def cexDesc : TaskDescriptor :=
  { id := "t1"
  , name := "t1"
  , command := "sh"
  , args := []
  , cwd := none
  , envs := none
  , autostart := false
  , group := "Main"
  , log_limit := some 1
  , restart_policy := none }

/-- Counterexample to C3: for a task whose descriptor sets log_limit = 1,
a single append via append_log leaves 2 lines in the buffer — strictly more
than the configured capacity — because append_log evicts only beyond a
hardcoded 1000 and never consults log_limit. -/
theorem C3_counterexample :
    logCapacity cexDesc < (append_log ["a"] ("b")).length := by
  decide

/-- C3 amended: the eviction bound actually enforced is the hardcoded 1000
of append_log, independent of the descriptor's log_limit: starting from any
buffer of at most 1000 lines, append_log keeps the length at most 1000,
appends to the back below the bound, and evicts exactly the oldest line at
the bound; the supervisor's stdin echo append performs no eviction at all
and always grows the buffer by one line, so it can push the buffer past any
bound. -/
theorem C3_amended_log_bound :
    (∀ (logs : List String) (line : String), logs.length ≤ 1000 →
      ((append_log logs line).length ≤ 1000
        ∧ (logs.length < 1000 → append_log logs line = logs ++ [line])
        ∧ (logs.length = 1000 → append_log logs line = logs.tail ++ [line])))
    ∧ (∀ (logs : List String) (input : String),
      echo_append logs input = logs ++ [">>> " ++ input]
        ∧ (echo_append logs input).length = logs.length + 1) := by
  constructor
  · intro logs line hle
    refine ⟨?_, ?_, ?_⟩
    · by_cases h : logs.length < 1000
      · simp only [append_log]
        rw [if_neg]
        · simp
          omega
        · simp
          omega
      · have h1000 : logs.length = 1000 := by omega
        simp only [append_log]
        rw [if_pos]
        · simp [h1000]
        · simp [h1000]
    · intro hlt
      simp only [append_log]
      rw [if_neg]
      simp
      omega
    · intro heq
      have hne : logs ≠ [] := by
        intro hnil
        rw [hnil] at heq
        simp at heq
      obtain ⟨a, rest, rfl⟩ := List.exists_cons_of_ne_nil hne
      simp only [append_log]
      rw [if_pos]
      · simp
      · simp at heq ⊢
        omega
  · intro logs input
    constructor
    · rfl
    · simp [echo_append]

/-- Witness for C3 amended at a concrete input: appending to an empty
buffer keeps the length within the hardcoded bound. -/
theorem C3_witness :
    (append_log [] ("x")).length ≤ 1000 :=
  ((C3_amended_log_bound.1 [] ("x") (by decide))).1

/-- resolveFinalStatus never yields a Running status. -/
theorem resolveFinalStatus_not_running (m : Bool) (r : Except String ExitStatus) :
    (resolveFinalStatus m r).isRunning = false := by
  cases r with
  | ok st =>
    simp only [resolveFinalStatus]
    split <;> rfl
  | error e => rfl

/-- One runner spawned by start_or_stop_task, as the concurrency model
tracks it: the script is everything that determines this runner's own
StatusCell writes (its spawn outcome and, on spawn success, the pid, start
tick, manual-stop flag and wait resolution of the run), and progress
counts how many of those writes it has already performed. Its write
sequence is runnerStatusWrites script: a single Failed write on spawn
error, or a Running write followed by the resolved final status, in that
program order (task_control.rs lines 246-356). -/
structure RunnerThread where
  script : Except String RunOutcome
  progress : Nat
deriving Repr

/-- The state one task's StatusCell and runners share across the UI thread
and the spawned runners. The async gap of the code is kept: a
start_or_stop_task call only reads the cell and spawns a runner; each
runner's writes (including its Running write at line 250) happen at later,
independently scheduled steps of the multi-threaded runtime. -/
structure ConcState where
  cell : TaskStatus
  runners : List RunnerThread

/-- A scheduler event: the UI thread runs one start_or_stop_task call
(whose freshly spawned runner, if any, will behave per the given script),
or runner i performs its next pending StatusCell write. -/
inductive ConcEvent
  | toggle (script : Except String RunOutcome)
  | runnerStep (i : Nat)

/-- One scheduled step, returning the successor state and the StatusCell
write performed (tagged with the index of the runner that performed it).
A toggle reads the cell as line 215 does: reading Running it only
try_sends Stop and returns (no write, no new runner); otherwise the call
spawns a runner that has performed no write yet. A runnerStep makes runner
i perform its next write from its script's write sequence, a no-op when i
names no runner or the runner has finished writing. -/
def concStep (st : ConcState) (e : ConcEvent) : ConcState × Option (Nat × TaskStatus) :=
  match e with
  | .toggle script =>
    if st.cell.isRunning then
      (st, none)
    else
      ({ st with runners := st.runners ++ [⟨script, 0⟩] }, none)
  | .runnerStep i =>
    match st.runners[i]? with
    | none => (st, none)
    | some r =>
      match (runnerStatusWrites r.script)[r.progress]? with
      | none => (st, none)
      | some w =>
        ({ cell := w, runners := st.runners.set i ⟨r.script, r.progress + 1⟩ }, some (i, w))

/-- The tagged StatusCell writes observed along a schedule of events. -/
def concWrites : ConcState → List ConcEvent → List (Nat × TaskStatus)
  | _, [] => []
  | st, e :: es =>
    match concStep st e with
    | (st2, none) => concWrites st2 es
    | (st2, some w) => w :: concWrites st2 es

/-- One task's shared state at supervisor init: cell Stopped, no runner
spawned yet. -/
def initConc : ConcState :=
  { cell := TaskStatus.Stopped, runners := [] }

/-- The writes performed by runner i, in order, within a tagged write
sequence. -/
def writesOf (i : Nat) : List (Nat × TaskStatus) → List TaskStatus
  | [] => []
  | (j, w) :: rest => if j = i then w :: writesOf i rest else writesOf i rest

/-- True when the write sequence contains a Failed write followed
immediately by a Running write (so with no intervening write at all). -/
def failedThenRunning : List TaskStatus → Bool
  | .Failed _ :: .Running _ _ :: _ => true
  | _ :: rest => failedThenRunning rest
  | [] => false

/-- True when the write sequence contains two adjacent Running writes. -/
def runningThenRunning : List TaskStatus → Bool
  | .Running _ _ :: .Running _ _ :: _ => true
  | _ :: rest => runningThenRunning rest
  | [] => false

/-- Schedule exhibiting Failed-then-Running: start a task whose child will
exit with code 1, let its runner write Running and then Failed, press the
toggle again on the now-Failed task, and let the new runner write
Running. -/
def cexRestartEvents : List ConcEvent :=
  [ ConcEvent.toggle (Except.ok ⟨1, 0, false, Except.ok ⟨some 1⟩⟩)
  , ConcEvent.runnerStep 0
  , ConcEvent.runnerStep 0
  , ConcEvent.toggle (Except.ok ⟨2, 5, false, Except.ok ⟨some 0⟩⟩)
  , ConcEvent.runnerStep 1 ]

/-- Schedule exhibiting Running-then-Running: the second start_or_stop_task
call runs before the first runner's Running write, so both calls read a
non-Running cell and both spawn; the two runners then perform their
Running writes back-to-back. -/
def cexRaceEvents : List ConcEvent :=
  [ ConcEvent.toggle (Except.ok ⟨1, 0, false, Except.ok ⟨some 0⟩⟩)
  , ConcEvent.toggle (Except.ok ⟨2, 0, false, Except.ok ⟨some 0⟩⟩)
  , ConcEvent.runnerStep 0
  , ConcEvent.runnerStep 1 ]

/-- Counterexample to C4, refuting both of its never-clauses. Restarting a
Failed task writes Running directly after Failed with no intervening
Stopped write; and because start_or_stop_task reads the status on the UI
thread while the Running write happens later on the spawned runner, two
toggles racing ahead of the first runner's Running write both see a
non-Running status and both spawn, producing two adjacent Running
writes. -/
theorem C4_counterexample :
    failedThenRunning ((concWrites initConc cexRestartEvents).map Prod.snd) = true
    ∧ runningThenRunning ((concWrites initConc cexRaceEvents).map Prod.snd) = true := by
  constructor <;> rfl

/-- Invariant behind the per-run discipline: from any state, the writes
runner i performs along the rest of the schedule continue its script's
write sequence from its current progress, and an index that names no
runner yet contributes a prefix of some script's write sequence (empty
until a toggle creates the runner). -/
theorem writesOf_concWrites (evs : List ConcEvent) :
    ∀ (st : ConcState) (i : Nat),
      (∀ r : RunnerThread, st.runners[i]? = some r →
        ∃ n, writesOf i (concWrites st evs) =
          ((runnerStatusWrites r.script).drop r.progress).take n)
      ∧ (st.runners[i]? = none →
        ∃ (s : Except String RunOutcome) (n : Nat),
          writesOf i (concWrites st evs) = (runnerStatusWrites s).take n) := by
  induction evs with
  | nil =>
    intro st i
    constructor
    · intro r _
      exact ⟨0, rfl⟩
    · intro _
      exact ⟨Except.error "", 0, rfl⟩
  | cons e es ih =>
    intro st i
    cases e with
    | toggle script =>
      by_cases hc : st.cell.isRunning = true
      · constructor
        · intro r hr
          have h2 := (ih st i).1 r hr
          simpa [concWrites, concStep, hc] using h2
        · intro hr
          have h2 := (ih st i).2 hr
          simpa [concWrites, concStep, hc] using h2
      · have hc2 : st.cell.isRunning = false := by simpa using hc
        set st2 : ConcState := { st with runners := st.runners ++ [⟨script, 0⟩] } with hst2
        have hwr : concWrites st (ConcEvent.toggle script :: es) = concWrites st2 es := by
          simp [concWrites, concStep, hc2, hst2]
        constructor
        · intro r hr
          have hlt : i < st.runners.length := by
            rcases List.getElem?_eq_some_iff.mp hr with ⟨h, _⟩
            exact h
          have hr2 : st2.runners[i]? = some r := by
            rw [hst2]
            simpa [List.getElem?_append_left hlt] using hr
          rw [hwr]
          exact (ih st2 i).1 r hr2
        · intro hr
          have hge : st.runners.length ≤ i := List.getElem?_eq_none_iff.mp hr
          rw [hwr]
          by_cases hei : i = st.runners.length
          · have hr2 : st2.runners[i]? = some ⟨script, 0⟩ := by
              rw [hst2, hei]
              exact List.getElem?_concat_length st.runners ⟨script, 0⟩
            obtain ⟨n, hn⟩ := (ih st2 i).1 ⟨script, 0⟩ hr2
            exact ⟨script, n, by simpa using hn⟩
          · have hr2 : st2.runners[i]? = none := by
              apply List.getElem?_eq_none
              rw [hst2]
              simp only [List.length_append, List.length_cons, List.length_nil]
              omega
            exact (ih st2 i).2 hr2
    | runnerStep j =>
      cases hj : st.runners[j]? with
      | none =>
        constructor
        · intro r hr
          have h2 := (ih st i).1 r hr
          simpa [concWrites, concStep, hj] using h2
        · intro hr
          have h2 := (ih st i).2 hr
          simpa [concWrites, concStep, hj] using h2
      | some r0 =>
        cases hp : (runnerStatusWrites r0.script)[r0.progress]? with
        | none =>
          constructor
          · intro r hr
            have h2 := (ih st i).1 r hr
            simpa [concWrites, concStep, hj, hp] using h2
          · intro hr
            have h2 := (ih st i).2 hr
            simpa [concWrites, concStep, hj, hp] using h2
        | some w =>
          set st2 : ConcState :=
            { cell := w, runners := st.runners.set j ⟨r0.script, r0.progress + 1⟩ } with hst2
          have hwr : concWrites st (ConcEvent.runnerStep j :: es) =
              (j, w) :: concWrites st2 es := by
            simp [concWrites, concStep, hj, hp, hst2]
          have hjlt : j < st.runners.length := by
            rcases List.getElem?_eq_some_iff.mp hj with ⟨h, _⟩
            exact h
          by_cases hij : j = i
          · subst hij
            constructor
            · intro r hr
              have hrr : r = r0 := by
                rw [hj] at hr
                exact (Option.some.inj hr).symm
              rw [hrr]
              have hr2 : st2.runners[j]? = some ⟨r0.script, r0.progress + 1⟩ := by
                rw [hst2]
                exact List.getElem?_set_self hjlt
              obtain ⟨m, hm⟩ := (ih st2 j).1 ⟨r0.script, r0.progress + 1⟩ hr2
              refine ⟨m + 1, ?_⟩
              rw [hwr]
              have hdrop : (runnerStatusWrites r0.script).drop r0.progress =
                  w :: (runnerStatusWrites r0.script).drop (r0.progress + 1) := by
                rcases List.getElem?_eq_some_iff.mp hp with ⟨hlt2, hget⟩
                rw [List.drop_eq_getElem_cons hlt2, hget]
              rw [hdrop]
              simp [writesOf, hm]
            · intro hr
              rw [hj] at hr
              exact Option.noConfusion hr
          · constructor
            · intro r hr
              have hr2 : st2.runners[i]? = some r := by
                rw [hst2]
                rw [List.getElem?_set_ne hij]
                exact hr
              obtain ⟨n, hn⟩ := (ih st2 i).1 r hr2
              refine ⟨n, ?_⟩
              rw [hwr]
              simpa [writesOf, hij] using hn
            · intro hr
              have hr2 : st2.runners[i]? = none := by
                rw [hst2, List.getElem?_set_ne hij]
                exact hr
              obtain ⟨s, n, hn⟩ := (ih st2 i).2 hr2
              refine ⟨s, n, ?_⟩
              rw [hwr]
              simpa [writesOf, hij] using hn

/-- C4 amended: the per-run discipline the spec states as never skipping
or reversing within one run. Along any schedule of start_or_stop_task
calls and runner write steps from init, the StatusCell writes of each
runner form, in order, a prefix of its script's write sequence, and that
sequence is either a single Failed write (spawn error) or a Running write
followed by exactly one terminal non-Running status — so no single run
writes Running twice, skips Running before its terminal write, or writes
again after resolving. Global adjacency guarantees beyond this do not hold
across runs: see the counterexample for Failed-then-Running on restart and
Running-then-Running under the double-spawn race. -/
theorem C4_per_run_discipline :
    (∀ (evs : List ConcEvent) (i : Nat),
      ∃ (s : Except String RunOutcome) (n : Nat),
        writesOf i (concWrites initConc evs) = (runnerStatusWrites s).take n)
    ∧ (∀ s : Except String RunOutcome,
      (∃ e, runnerStatusWrites s = [TaskStatus.Failed e])
      ∨ (∃ p t fin, runnerStatusWrites s = [TaskStatus.Running p t, fin]
          ∧ fin.isRunning = false)) := by
  constructor
  · intro evs i
    exact (writesOf_concWrites evs initConc i).2 (by simp [initConc])
  · intro s
    cases s with
    | error e => exact Or.inl ⟨e, rfl⟩
    | ok r =>
      exact Or.inr ⟨r.pid, r.start_time, resolveFinalStatus r.is_manual_stop r.exit_result,
        rfl, resolveFinalStatus_not_running _ _⟩

/-- Which branch of the pump's select the scheduler resolves first in one
loop iteration. -/
inductive PumpChoice
  | out
  | err
deriving DecidableEq, Repr

/-- The tag the pump puts on stderr lines (task_control.rs line 276). -/
def errTag (l : String) : String :=
  "[ERR] " ++ l

/-- The I/O pump loop of task_control.rs (lines 264-280), with the two
pipes modelled as the lists of lines they will deliver (an empty list is
end-of-stream: next_line yields Ok(None)) and the select nondeterminism
modelled by an explicit schedule of branch choices. Each iteration polls
the scheduled branch; a line appends it to the log (stderr lines tagged)
and loops, while end-of-stream on the polled branch breaks the loop, as
the else-break arms of the select do. The result is the sequence of lines
handed to append_log together with both streams' undelivered remainders;
none means the finite schedule ended before the loop broke. -/
def pumpGo : List PumpChoice → List String → List String → List String →
    Option (List String × List String × List String)
  | [], _, _, _ => none
  | .out :: rest, outs, errs, acc =>
    match outs with
    | [] => some (acc, [], errs)
    | l :: outs2 => pumpGo rest outs2 errs (acc ++ [l])
  | .err :: rest, outs, errs, acc =>
    match errs with
    | [] => some (acc, outs, [])
    | l :: errs2 => pumpGo rest outs errs2 (acc ++ [errTag l])

/-- Counterexample to C5: with stdout still holding an unread line and
stderr already at end-of-stream, a schedule that polls the stderr branch
first makes the pump loop break immediately: it terminates with the stdout
line never read, even though stdout had not reached end-of-stream. -/
theorem C5_counterexample :
    pumpGo [PumpChoice.err] ["a"] [] [] = some ([], ["a"], []) := by
  rfl

/-- An interleaving of two line sequences: the log is some merge of the two
that preserves the relative order within each sequence. -/
inductive Interleave : List String → List String → List String → Prop
  | nil : Interleave [] [] []
  | left (x : String) {xs ys zs : List String} :
      Interleave xs ys zs → Interleave (x :: xs) ys (x :: zs)
  | right (y : String) {xs ys zs : List String} :
      Interleave xs ys zs → Interleave xs (y :: ys) (y :: zs)

/-- Generalized pump correctness over an arbitrary accumulator, for the
induction. -/
theorem pumpGo_spec (sched : List PumpChoice) :
    ∀ (outs errs acc logs ro re : List String),
      pumpGo sched outs errs acc = some (logs, ro, re) →
      ∃ po pe tl,
        logs = acc ++ tl
        ∧ outs = po ++ ro
        ∧ errs = pe ++ re
        ∧ Interleave po (pe.map errTag) tl
        ∧ (ro = [] ∨ re = []) := by
  induction sched with
  | nil =>
    intro outs errs acc logs ro re h
    simp [pumpGo] at h
  | cons c rest ih =>
    intro outs errs acc logs ro re h
    cases c with
    | out =>
      cases outs with
      | nil =>
        simp only [pumpGo, Option.some.injEq, Prod.mk.injEq] at h
        obtain ⟨h1, h2, h3⟩ := h
        refine ⟨[], [], [], by simp [h1.symm], by simp [h2.symm], by simp [h3.symm], Interleave.nil, Or.inl h2.symm⟩
      | cons l outs2 =>
        simp only [pumpGo] at h
        obtain ⟨po, pe, tl, h1, h2, h3, h4, h5⟩ := ih outs2 errs (acc ++ [l]) logs ro re h
        refine ⟨l :: po, pe, l :: tl, ?_, by simp [h2], h3, Interleave.left l h4, h5⟩
        simp [h1]
    | err =>
      cases errs with
      | nil =>
        simp only [pumpGo, Option.some.injEq, Prod.mk.injEq] at h
        obtain ⟨h1, h2, h3⟩ := h
        refine ⟨[], [], [], by simp [h1.symm], by simp [h2.symm], by simp [h3.symm], Interleave.nil, Or.inr h3.symm⟩
      | cons l errs2 =>
        simp only [pumpGo] at h
        obtain ⟨po, pe, tl, h1, h2, h3, h4, h5⟩ := ih outs errs2 (acc ++ [errTag l]) logs ro re h
        refine ⟨po, l :: pe, errTag l :: tl, ?_, h2, by simp [h3], Interleave.right (errTag l) h4, h5⟩
        simp [h1]

/-- C5 amended: whenever the pump loop terminates it has appended, in
order, a prefix of the stdout lines unchanged and a prefix of the stderr
lines each tagged with the error prefix, interleaved by the schedule with
each stream's relative order preserved; but the loop breaks as soon as the
polled stream reaches end-of-stream, so at termination at least one stream
(not necessarily both) is exhausted and the other stream's remainder is
dropped unread. -/
theorem C5_amended_pump (sched : List PumpChoice) (outs errs logs ro re : List String)
    (h : pumpGo sched outs errs [] = some (logs, ro, re)) :
    ∃ po pe,
      outs = po ++ ro
      ∧ errs = pe ++ re
      ∧ Interleave po (pe.map errTag) logs
      ∧ (ro = [] ∨ re = []) := by
  obtain ⟨po, pe, tl, h1, h2, h3, h4, h5⟩ := pumpGo_spec sched outs errs [] logs ro re h
  simp at h1
  exact ⟨po, pe, h2, h3, h1 ▸ h4, h5⟩

/-- Witness for C5 amended: one stdout line then the stderr end-of-stream
break, at concrete inputs. -/
theorem C5_witness :
    ∃ po pe,
      (["a"] : List String) = po ++ []
      ∧ ([] : List String) = pe ++ []
      ∧ Interleave po (pe.map errTag) ["a"]
      ∧ (([] : List String) = [] ∨ ([] : List String) = []) :=
  C5_amended_pump [PumpChoice.out, PumpChoice.err] ["a"] [] ["a"] [] [] rfl

/-- The bound passed to mpsc::channel when start_or_stop_task creates a
fresh control channel (task_control.rs line 231). -/
def controlChannelCapacity : Nat :=
  32

/-- try_send on a bounded mpsc mailbox, modelled as a queue with a
capacity: if there is room the message is enqueued at the back, otherwise
the call returns immediately and the message is dropped. Both senders in
task_control.rs (the Stop at line 217 and the Stdin at line 523) discard
the result, so a full mailbox drops the message silently. -/
def try_send (cap : Nat) (queue : List TaskControlMsg) (msg : TaskControlMsg) :
    List TaskControlMsg :=
  if queue.length < cap then queue ++ [msg] else queue

/-- The supervising loop's internal state relevant to control messages:
the manual-stop flag and whether the child has been killed. -/
structure LoopState where
  is_manual_stop : Bool
  child_killed : Bool
deriving DecidableEq, Repr

/-- The supervising loop's handling of one received control message
(task_control.rs lines 308-321). The Stdin arm writes the text and a
newline to the child's stdin with every result discarded, so the loop
state it produces is passed the outcome of that write and ignores it; the
Stop arm sets the manual-stop flag and kills the child. -/
def handleControlMsg (st : LoopState) (msg : TaskControlMsg)
    (stdin_write : Except String Unit) : LoopState :=
  match msg with
  | .Stdin _ =>
    match stdin_write with
    | .ok _ => st
    | .error _ => st
  | .Stop => { st with is_manual_stop := true, child_killed := true }

/-- C6: the control mailbox created per run has capacity 32; try_send
never blocks (it is a total function of the queue), it enqueues when there
is room and silently drops the message when the mailbox is full; and a
failed write to the child's stdin leaves the loop in exactly the state a
successful write would, so the failure is ignored rather than surfaced. -/
theorem C6_control_channel :
    controlChannelCapacity = 32
    ∧ (∀ (q : List TaskControlMsg) (m : TaskControlMsg),
        q.length = controlChannelCapacity → try_send controlChannelCapacity q m = q)
    ∧ (∀ (q : List TaskControlMsg) (m : TaskControlMsg),
        q.length < controlChannelCapacity →
          try_send controlChannelCapacity q m = q ++ [m])
    ∧ (∀ (q : List TaskControlMsg) (m : TaskControlMsg),
        q.length ≤ controlChannelCapacity →
          (try_send controlChannelCapacity q m).length ≤ controlChannelCapacity)
    ∧ (∀ (st : LoopState) (text : String) (r1 r2 : Except String Unit),
        handleControlMsg st (TaskControlMsg.Stdin text) r1 =
          handleControlMsg st (TaskControlMsg.Stdin text) r2) := by
  refine ⟨rfl, ?_, ?_, ?_, ?_⟩
  · intro q m hfull
    simp [try_send, hfull]
  · intro q m hroom
    simp [try_send, hroom]
  · intro q m hle
    by_cases h : q.length < controlChannelCapacity
    · simp [try_send, h]
      omega
    · simp [try_send, h]
      omega
  · intro st text r1 r2
    cases r1 <;> cases r2 <;> rfl

/-- Witness for C6 at a full mailbox of 32 Stop messages: the send is
dropped. -/
theorem C6_witness :
    try_send controlChannelCapacity (List.replicate 32 TaskControlMsg.Stop) TaskControlMsg.Stop =
      List.replicate 32 TaskControlMsg.Stop :=
  C6_control_channel.2.1 (List.replicate 32 TaskControlMsg.Stop) TaskControlMsg.Stop
    (by simp [controlChannelCapacity])

/-- One entry of the scripts-directory scan, as std::fs::read_dir delivers
it: whether the path is a regular file, its extension and file stem (None
when absent), and the full path rendered as a string. -/
structure DirEntry where
  is_file : Bool
  ext : Option String
  file_stem : Option String
  path : String
deriving DecidableEq, Repr

/-- The synthetic Deno task descriptor built for one matching script file
(task_control.rs lines 117-135). -/
def mkDenoTask (script_dir : String) (e : DirEntry) : TaskDescriptor :=
  { id := "deno_" ++ e.file_stem.getD ("unknown")
  , name := "🦕 " ++ e.file_stem.getD ("unknown")
  , command := "deno"
  , args := ["run", "-A", "--unstable-kv", "--unstable-cron", e.path]
  , cwd := some script_dir
  , envs := none
  , autostart := false
  , group := "Scripts"
  , log_limit := some 1000
  , restart_policy := some RestartPolicy.Never }

/-- Whether a directory entry is picked up by the scan: a regular file
whose extension is the fixed "ts" (task_control.rs line 110). -/
def matchesScript (e : DirEntry) : Bool :=
  e.is_file && (e.ext == some ("ts"))

/-- The scripts-directory scan (task_control.rs lines 105-139): when
read_dir fails nothing is appended; otherwise one synthetic descriptor per
entry that is a regular file with the fixed extension, in directory order.
The scan looks only at the entries of the one directory (read_dir is not
recursive). -/
def scanScripts (script_dir : String) (entries : Option (List DirEntry)) :
    List TaskDescriptor :=
  match entries with
  | none => []
  | some es => (es.filter matchesScript).map (mkDenoTask script_dir)

/-- Descriptor loading at supervisor init (task_control.rs lines 101-139):
the parse result of the task-list document (none models a document that
fails to parse, which unwrap_or_default turns into the empty list) followed
by the scripts-directory scan appended after the declared tasks. -/
def loadDescriptors (parsed : Option (List TaskDescriptor)) (script_dir : String)
    (entries : Option (List DirEntry)) : List TaskDescriptor :=
  parsed.getD [] ++ scanScripts script_dir entries

/-- C7: loading is total and ordered — a task-list document that fails to
parse contributes an empty declared set and the scan result alone
populates the supervisor; a descriptor is produced by the scan exactly for
the regular files with the fixed "ts" extension, and each synthetic
descriptor carries id "deno_" followed by the file stem, autostart false,
restart policy Never, group "Scripts", and cwd set to the scripts
directory. -/
theorem C7_loading :
    (∀ (sd : String) (es : Option (List DirEntry)),
      loadDescriptors none sd es = scanScripts sd es)
    ∧ (∀ (sd : String) (es : List DirEntry) (d : TaskDescriptor),
      d ∈ scanScripts sd (some es) ↔
        ∃ e ∈ es, matchesScript e = true ∧ d = mkDenoTask sd e)
    ∧ (∀ (sd : String) (e : DirEntry),
      (mkDenoTask sd e).id = "deno_" ++ e.file_stem.getD ("unknown")
        ∧ (mkDenoTask sd e).autostart = false
        ∧ (mkDenoTask sd e).restart_policy = some RestartPolicy.Never
        ∧ (mkDenoTask sd e).group = "Scripts"
        ∧ (mkDenoTask sd e).cwd = some sd) := by
  refine ⟨?_, ?_, ?_⟩
  · intro sd es
    simp [loadDescriptors]
  · intro sd es d
    simp only [scanScripts, List.mem_map, List.mem_filter]
    constructor
    · rintro ⟨e, ⟨he, hm⟩, rfl⟩
      exact ⟨e, he, hm, rfl⟩
    · rintro ⟨e, he, hm, rfl⟩
      exact ⟨e, ⟨he, hm⟩, rfl⟩
  · intro sd e
    exact ⟨rfl, rfl, rfl, rfl, rfl⟩

/-- Witness for C7 at a concrete directory with one matching script file:
parse failure still yields that script's synthetic descriptor. -/
theorem C7_witness :
    loadDescriptors none "scripts" (some [⟨true, some ("ts"), some ("job"), "scripts/job.ts"⟩]) =
      scanScripts "scripts" (some [⟨true, some ("ts"), some ("job"), "scripts/job.ts"⟩]) :=
  C7_loading.1 "scripts" (some [⟨true, some ("ts"), some ("job"), "scripts/job.ts"⟩])

/-- An event acting on one TaskRuntime, for the control_sender lifecycle
model: a start_or_stop_task call with its spawn outcome, or the owning
runner's exit resolution. -/
inductive SupEvent
  | start_or_stop (spawn : Except String (Nat × Nat))
  | runner_exit (is_manual_stop : Bool) (exit_result : Except String ExitStatus)

/-- The TaskRuntime fields the lifecycle claims observe; the live mpsc
sender is modelled by the generation number of the channel it belongs
to. -/
structure RuntimeState where
  status : TaskStatus
  control_tx : Option Nat
deriving DecidableEq, Repr

/-- The TaskRuntime as created at supervisor init (task_control.rs lines
143-149): status Stopped, control_tx None. -/
def initRuntime : RuntimeState :=
  { status := TaskStatus.Stopped, control_tx := none }

/-- One step of the TaskRuntime under a supervisor event, carrying a
fresh-channel generation counter. On start_or_stop while Running only a
Stop is sent and no field changes; otherwise a fresh channel's sender is
recorded (task_control.rs line 232) and the runner writes Running on spawn
success or Failed on spawn error. On runner exit the final status is
resolved and written; no statement in start_or_stop_task or in the spawned
runner ever assigns control_tx back to None, so the field is left
unchanged. -/
def supStep (gen : Nat) (st : RuntimeState) (e : SupEvent) : Nat × RuntimeState :=
  match e with
  | .start_or_stop spawn =>
    if st.status.isRunning then
      (gen, st)
    else
      match spawn with
      | .error err => (gen + 1, { status := TaskStatus.Failed err, control_tx := some gen })
      | .ok (p, t) => (gen + 1, { status := TaskStatus.Running p t, control_tx := some gen })
  | .runner_exit m r =>
    if st.status.isRunning then
      (gen, { st with status := resolveFinalStatus m r })
    else
      (gen, st)

/-- Folding a sequence of supervisor events over a TaskRuntime. -/
def supRun : Nat → RuntimeState → List SupEvent → RuntimeState
  | _, st, [] => st
  | gen, st, e :: es =>
    match supStep gen st e with
    | (gen2, st2) => supRun gen2 st2 es

/-- The events of the C8 counterexample: start the task (spawn ok, pid 1),
then let the child exit cleanly so the runner fully exits. -/
def cexSupEvents : List SupEvent :=
  [ SupEvent.start_or_stop (Except.ok (1, 0))
  , SupEvent.runner_exit false (Except.ok ⟨some 0⟩) ]

/-- Counterexample to C8: after a started task's runner has fully exited
(final status Stopped written), the TaskRuntime still holds the stale
sender of the run's control channel — control_tx is Some, not None, because
no code path ever clears it. -/
theorem C8_counterexample :
    (supRun 0 initRuntime cexSupEvents).status = TaskStatus.Stopped
    ∧ (supRun 0 initRuntime cexSupEvents).control_tx = some 0 := by
  constructor <;> rfl

/-- C8 amended: control_tx is None at creation and becomes Some exactly
when the task is started (a start_or_stop call on a non-Running task
records the fresh sender, whether or not the spawn then succeeds); but it
never reverts to None afterwards — every step preserves an already-Some
control_tx, so after a run ends the stale sender remains in the
TaskRuntime (later sends on it merely fail because the receiver is
dropped). -/
theorem C8_sender_lifecycle :
    initRuntime.control_tx = none
    ∧ (∀ (gen : Nat) (st : RuntimeState) (spawn : Except String (Nat × Nat)),
        st.status.isRunning = false →
          (supStep gen st (SupEvent.start_or_stop spawn)).2.control_tx = some gen)
    ∧ (∀ (gen : Nat) (st : RuntimeState) (e : SupEvent),
        st.control_tx ≠ none → (supStep gen st e).2.control_tx ≠ none) := by
  refine ⟨rfl, ?_, ?_⟩
  · intro gen st spawn hnr
    cases spawn with
    | error err => simp [supStep, hnr]
    | ok pt => obtain ⟨p, t⟩ := pt; simp [supStep, hnr]
  · intro gen st e hsome
    cases e with
    | start_or_stop spawn =>
      by_cases hrun : st.status.isRunning = true
      · simpa [supStep, hrun] using hsome
      · have hnr : st.status.isRunning = false := by simpa using hrun
        cases spawn with
        | error err => simp [supStep, hnr]
        | ok pt => obtain ⟨p, t⟩ := pt; simp [supStep, hnr]
    | runner_exit m r =>
      by_cases hrun : st.status.isRunning = true
      · simpa [supStep, hrun] using hsome
      · have hnr : st.status.isRunning = false := by simpa using hrun
        simpa [supStep, hnr] using hsome

/-- Witness for C8 amended: starting the freshly created runtime records
the generation-0 sender. -/
theorem C8_witness :
    (supStep 0 initRuntime (SupEvent.start_or_stop (Except.ok (1, 0)))).2.control_tx = some 0 :=
  C8_sender_lifecycle.2.1 0 initRuntime (Except.ok (1, 0)) rfl

/-- The synchronous effect of one start_or_stop_task call (task_control.rs
lines 211-232), before any spawned work runs: given the task's current
status, its recorded sender (as the channel's queue when one is live) and
that queue, it returns the queue after the call, whether the call went on
to spawn a runner, and the status as left by the call itself. The stop
branch runs only when the status is Running: it try_sends Stop when a
sender is recorded and returns; the code deliberately writes no status
there (comment at line 219). When not Running the call falls through to
the start path without sending anything. -/
def start_or_stop_sync (status : TaskStatus) (control_tx : Option Nat)
    (mailbox : List TaskControlMsg) : List TaskControlMsg × Bool × TaskStatus :=
  if status.isRunning then
    match control_tx with
    | some _ => (try_send controlChannelCapacity mailbox TaskControlMsg.Stop, false, status)
    | none => (mailbox, false, status)
  else
    (mailbox, true, status)

/-- C9: the stop behavior of start_or_stop_task is a no-op outside its
guard — on a task whose status is not Running the call sends no control
message and performs no status write (the evaluation is total, so no
panic; the call instead proceeds to the start path); and on a Running task
whose control channel is already gone the call is a complete no-op for
control delivery: nothing is sent, nothing is spawned, no status is
written. -/
theorem C9_stop_noop (status : TaskStatus) (tx : Option Nat) (mb : List TaskControlMsg) :
    (status.isRunning = false →
      start_or_stop_sync status tx mb = (mb, true, status))
    ∧ (status.isRunning = true → tx = none →
      start_or_stop_sync status tx mb = (mb, false, status)) := by
  constructor
  · intro hnr
    simp [start_or_stop_sync, hnr]
  · intro hrun htx
    simp [start_or_stop_sync, hrun, htx]

/-- Witness for C9 on a concrete Stopped task: the call sends nothing into
the mailbox and leaves the status untouched. -/
theorem C9_witness :
    start_or_stop_sync TaskStatus.Stopped none [] = ([], true, TaskStatus.Stopped) :=
  (C9_stop_noop TaskStatus.Stopped none []).1 rfl

/-- The crossterm key codes the List-mode handler distinguishes
(task_control.rs lines 485-510). -/
inductive KeyCode
  | Down
  | Up
  | Enter
  | Esc
  | Backspace
  | Char (c : Char)
  | Other
deriving DecidableEq, Repr

/-- The Down-or-j selection update: (selected_idx + 1) % tasks.len()
(task_control.rs line 488). The Rust % panics when the task list is empty,
modelled as none. -/
def selDown (len idx : Nat) : Option Nat :=
  if len = 0 then none else some ((idx + 1) % len)

/-- The Up-or-k selection update: checked_sub(1).unwrap_or(len - 1)
(task_control.rs lines 492-495). When idx is 0 the fallback len - 1
underflows on an empty task list, modelled as none. -/
def selUp (len idx : Nat) : Option Nat :=
  if idx = 0 then
    if len = 0 then none else some (len - 1)
  else
    some (idx - 1)

/-- The selection component of handle_list_keys: Down and the character j
share one arm, Up and the character k share one arm, every other key
leaves the selection unchanged. -/
def handle_list_selection (key : KeyCode) (len idx : Nat) : Option Nat :=
  match key with
  | .Char c =>
    if c = 'j' then selDown len idx
    else if c = 'k' then selUp len idx
    else some idx
  | .Down => selDown len idx
  | .Up => selUp len idx
  | _ => some idx

/-- C10: with a non-empty task list and an in-range selection, every key
handled by the List-mode handler yields a defined (panic-free) new
selection that is again strictly below the task count; Down wraps the last
task to the first and Up wraps the first task to the last; and the
non-empty precondition is required, since on an empty list both the modulo
of Down and the len-minus-one fallback of Up are undefined (a Rust
panic). -/
theorem C10_selection_bounds :
    (∀ (key : KeyCode) (len idx : Nat), 0 < len → idx < len →
      ∃ idx2, handle_list_selection key len idx = some idx2 ∧ idx2 < len)
    ∧ (∀ len : Nat, 0 < len →
      handle_list_selection KeyCode.Down len (len - 1) = some 0
        ∧ handle_list_selection KeyCode.Up len 0 = some (len - 1))
    ∧ handle_list_selection KeyCode.Down 0 0 = none
    ∧ handle_list_selection KeyCode.Up 0 0 = none := by
  have hdown : ∀ len idx : Nat, 0 < len → idx < len →
      ∃ idx2, selDown len idx = some idx2 ∧ idx2 < len := by
    intro len idx hlen _
    refine ⟨(idx + 1) % len, ?_, Nat.mod_lt _ hlen⟩
    simp [selDown, Nat.pos_iff_ne_zero.mp hlen]
  have hup : ∀ len idx : Nat, 0 < len → idx < len →
      ∃ idx2, selUp len idx = some idx2 ∧ idx2 < len := by
    intro len idx hlen hidx
    by_cases h0 : idx = 0
    · refine ⟨len - 1, ?_, by omega⟩
      simp [selUp, h0, Nat.pos_iff_ne_zero.mp hlen]
    · refine ⟨idx - 1, ?_, by omega⟩
      simp [selUp, h0]
  refine ⟨?_, ?_, rfl, rfl⟩
  · intro key len idx hlen hidx
    cases key with
    | Char c =>
      by_cases hj : c = 'j'
      · simpa [handle_list_selection, hj] using hdown len idx hlen hidx
      · by_cases hk : c = 'k'
        · simpa [handle_list_selection, hj, hk] using hup len idx hlen hidx
        · exact ⟨idx, by simp [handle_list_selection, hj, hk], hidx⟩
    | Down => simpa [handle_list_selection] using hdown len idx hlen hidx
    | Up => simpa [handle_list_selection] using hup len idx hlen hidx
    | Enter => exact ⟨idx, rfl, hidx⟩
    | Esc => exact ⟨idx, rfl, hidx⟩
    | Backspace => exact ⟨idx, rfl, hidx⟩
    | Other => exact ⟨idx, rfl, hidx⟩
  · intro len hlen
    constructor
    · have : len - 1 + 1 = len := by omega
      simp [handle_list_selection, selDown, Nat.pos_iff_ne_zero.mp hlen, this]
    · simp [handle_list_selection, selUp, Nat.pos_iff_ne_zero.mp hlen]

/-- Witness for C10 on a concrete three-task list with the last task
selected: Down stays in range (and in fact wraps to the first task). -/
theorem C10_witness :
    ∃ idx2, handle_list_selection KeyCode.Down 3 2 = some idx2 ∧ idx2 < 3 :=
  C10_selection_bounds.1 KeyCode.Down 3 2 (by decide) (by decide)

end AtlasTask
